import Mathlib

/-!
Verification of the tswow ORM generator (`src/tswow-orm.ts`).

The TypeScript source is a code generator: `handleClass` emits per-entity
C++ persistence methods (loadQuery/saveQuery/removeQuery/save/remove/Load)
and `tableGeneration` emits the C++ schema-reconciliation routine executed
at server start.  The emitted C++ is deterministic in the declared fields
and the observed catalog columns, so we embed its runtime behaviour
directly: the reconciliation routine becomes a function from declared
fields and catalog observations to the list of events (queries on a
connection, confirmation messages) it performs, and each generated query
method becomes a function from the entity's field values to the SQL string
it produces at runtime.
-/

namespace TswowOrm

/-! ### Character-list string helpers

Kernel-friendly (structurally recursive) replacements for the string
operations the TypeScript source uses: `toLowerCase`, `toUpperCase`
(also `std::toupper` in the emitted C++), `startsWith`, `split` and
`Array.join`. -/

/-- `chPref p l` is true when `p` is an initial segment of `l`. -/
def chPref : List Char → List Char → Bool
  | [], _ => true
  | _ :: _, [] => false
  | a :: as, b :: bs => a == b && chPref as bs

/-- `chOccurs n h` is true when the character list of `n` occurs
contiguously inside the character list of `h`. -/
def chOccursL (n : List Char) : List Char → Bool
  | [] => n.isEmpty
  | c :: rest => chPref n (c :: rest) || chOccursL n rest

/-- Substring occurrence on strings. -/
def chOccurs (needle hay : String) : Bool :=
  chOccursL needle.data hay.data

/-- `startsWith` on strings (TS `String.prototype.startsWith`). -/
def strStarts (s whole : String) : Bool :=
  chPref s.data whole.data

/-- Split a character list on a separator character, keeping empty
segments, like TS `String.prototype.split` with a one-character
separator. -/
def splitChar (c : Char) : List Char → List (List Char)
  | [] => [[]]
  | a :: rest =>
    match splitChar c rest with
    | [] => if a == c then [[], []] else [[a]]
    | g :: gs => if a == c then [] :: g :: gs else (a :: g) :: gs

/-- ASCII `toLowerCase`, as used by TS `String.prototype.toLowerCase`
on identifier text. -/
def lowerStr (s : String) : String :=
  ⟨s.data.map Char.toLower⟩

/-- ASCII `toUpperCase`: the emitted C++ uppercases the observed column
type with `std::transform(..., std::toupper)`. -/
def upperStr (s : String) : String :=
  ⟨s.data.map Char.toUpper⟩

/-- `Array.prototype.join(sep)`. -/
def joinSep (sep : String) : List String → String
  | [] => ""
  | [x] => x
  | x :: y :: rest => x ++ sep ++ joinSep sep (y :: rest)

/-! ### Data model (from `src/tswow-orm.ts`) -/

/-- The scalar field types of the ORM (`MethodTypes` keys). -/
inductive FieldType where
  | string | uint8 | uint16 | uint32 | uint64
  | int8 | int16 | int32 | int64 | float | double | int
deriving DecidableEq, Repr

/-- TS source name of a field type (the `MethodTypes` key). -/
def fieldTypeName : FieldType → String
  | .string => "string" | .uint8 => "uint8" | .uint16 => "uint16"
  | .uint32 => "uint32" | .uint64 => "uint64" | .int8 => "int8"
  | .int16 => "int16" | .int32 => "int32" | .int64 => "int64"
  | .float => "float" | .double => "double" | .int => "int"

/-- Reverse lookup into `MethodTypes`: `Object.keys(MethodTypes).includes`
combined with the cast to `FieldType`. -/
def methodTypeOf (s : String) : Option FieldType :=
  if s == "string" then some .string
  else if s == "uint8" then some .uint8
  else if s == "uint16" then some .uint16
  else if s == "uint32" then some .uint32
  else if s == "uint64" then some .uint64
  else if s == "int8" then some .int8
  else if s == "int16" then some .int16
  else if s == "int32" then some .int32
  else if s == "int64" then some .int64
  else if s == "float" then some .float
  else if s == "double" then some .double
  else if s == "int" then some .int
  else none

/-- `class Field` of the source: a declared scalar column. -/
structure Field where
  name : String
  type : FieldType
  isPrimaryKey : Bool
  initialization : String
deriving DecidableEq, Repr

/-- `Field.sqlInitialization`: for string fields the initializer text
(which carries its TS quotes) is turned into an escaped C++ literal
piece `\<text-minus-final-quote>\"`; other types pass through. -/
def sqlInitialization (f : Field) : String :=
  if f.type == .string then
    "\\" ++ ⟨f.initialization.data.take (f.initialization.data.length - 1)⟩ ++ "\\\""
  else f.initialization

/-- `type DBType = 'world'|'auth'|'characters'`; also identifies the
query connection `QueryWorld` / `QueryAuth` / `QueryCharacters`. -/
inductive DBType where
  | world | auth | characters
deriving DecidableEq, Repr

/-- `getReadSQLType`: catalog ("read") rendering of a field's type. -/
def getReadSQLType (field : Field) : String :=
  match field.type with
  | .int => "INT(11)"
  | .int8 => "TINYINT(4)"
  | .int16 => "SMALLINT(6)"
  | .int32 => "INT(11)"
  | .int64 => "BIGINT(20)"
  | .uint8 => "TINYINT(3) UNSIGNED"
  | .uint16 => "SMALLINT(5) UNSIGNED"
  | .uint32 => "INT(10) UNSIGNED"
  | .uint64 => "BIGINT(20) UNSIGNED"
  | .float => "FLOAT"
  | .double => "DOUBLE"
  | .string => "TEXT"

/-- `getWriteSQLType`: DDL ("write") rendering of a field's type. -/
def getWriteSQLType (field : Field) : String :=
  match field.type with
  | .int => "INT"
  | .int8 => "TINYINT"
  | .int16 => "SMALLINT"
  | .int32 => "INT"
  | .int64 => "BIGINT"
  | .uint8 => "TINYINT UNSIGNED"
  | .uint16 => "SMALLINT UNSIGNED"
  | .uint32 => "INT UNSIGNED"
  | .uint64 => "BIGINT UNSIGNED"
  | .float => "FLOAT"
  | .double => "DOUBLE"
  | .string => "TEXT"

/-! ### Reconciliation semantics (`tableGeneration`)

`tableGeneration` emits C++ that runs once per table.  The emitted code
is straight-line with loops over the catalog rows and the declared
fields, so we model the sequence of runtime events it performs given the
declared fields and the observed catalog columns. -/

/-- One row of `information_schema.COLUMNS` for the table, as the
emitted code consumes it: the column name, the raw `COLUMN_TYPE` string
(uppercased before comparison), and the `was_pk` answer of the
`KEY_COLUMN_USAGE` lookup for the column. -/
structure ColumnObservation where
  name : String
  rawType : String
  isPrimaryKeyMember : Bool
deriving DecidableEq, Repr

/-- The schema-changing statements the emitted reconciliation code can
run against its table. -/
inductive MigrationStep where
  | AddColumn (name sqlType : String)
  | DropColumn (name : String)
  | ModifyColumnType (name sqlType : String)
  | DropTableIfExists
  | CreateTable (fields : List Field)
  | BackfillDefault (f : Field)
deriving DecidableEq, Repr

/-- A query the emitted code executes: catalog introspection (the
`information_schema` SELECTs) or a migration statement on the table. -/
inductive Stmt where
  | introspectColumns (tableName : String)
  | introspectKeyUsage (tableName column : String)
  | migrate (tableName : String) (step : MigrationStep)
deriving DecidableEq, Repr

/-- A runtime event of the emitted reconciliation code: a query on a
named connection, or an `ask(...)` confirmation message. -/
inductive Event where
  | query (conn : DBType) (s : Stmt)
  | ask (msg : String)
deriving DecidableEq, Repr

/-- One iteration of the emitted `do { ... } while(rows->GetRow())`
loop, for catalog row `o`: the `KEY_COLUMN_USAGE` lookup, then the
`if (column == "...") ... else if ... else { drop }` chain.  Returns the
events performed and whether the iteration executed `break` (after
setting `should_create = true`). -/
def scanObs (dbc : DBType) (tn : String) (fields : List Field)
    (o : ColumnObservation) : List Event × Bool :=
  let kq : Event := .query .world (.introspectKeyUsage tn o.name)
  let ty := upperStr o.rawType
  match fields.find? (fun f => f.name == o.name) with
  | none =>
      ([kq, .ask (tn ++ ":" ++ o.name ++ " was removed"),
        .query dbc (.migrate tn (.DropColumn o.name))], false)
  | some f =>
      if ty == getReadSQLType f then
        ([kq], false)
      else if f.type == .string then
        ([kq,
          .ask (tn ++ ":" ++ o.name ++ " changed type from " ++ ty
                ++ " to " ++ fieldTypeName f.type),
          .query dbc (.migrate tn (.DropColumn o.name)),
          .query dbc (.migrate tn (.AddColumn o.name "TEXT"))], false)
      else if ty == "TEXT" then
        ([kq,
          .ask (tn ++ ":" ++ o.name ++ " changed type from " ++ ty
                ++ " to " ++ fieldTypeName f.type),
          .query dbc (.migrate tn (.DropColumn o.name)),
          .query dbc (.migrate tn (.AddColumn o.name (getWriteSQLType f)))], false)
      else if o.isPrimaryKeyMember then
        ([kq,
          .ask (tn ++ ":" ++ o.name ++ " changed type from " ++ ty
                ++ " to " ++ fieldTypeName f.type
                ++ " and was a primary key (whole db will be destroyed)")], true)
      else
        ([kq,
          .ask (tn ++ ":" ++ o.name ++ " changed type from " ++ ty
                ++ " to " ++ fieldTypeName f.type),
          .query dbc (.migrate tn (.ModifyColumnType f.name (getWriteSQLType f)))], false)

/-- The full catalog scan loop.  Returns the events, the names marked
`found_<x> = true` (a column name is marked as soon as its branch is
entered, even on the `break` iteration), and whether the loop was left
by `break` (i.e. `should_create` was set during the scan). -/
def scanLoop (dbc : DBType) (tn : String) (fields : List Field) :
    List ColumnObservation → List Event × List String × Bool
  | [] => ([], [], false)
  | o :: rest =>
    let r := scanObs dbc tn fields o
    let m : List String := if fields.any (fun f => f.name == o.name) then [o.name] else []
    if r.2 then (r.1, m, true)
    else
      let rec' := scanLoop dbc tn fields rest
      (r.1 ++ rec'.1, m ++ rec'.2.1, rec'.2.2)

/-- The emitted `if( !should_create && !found_<x> )` chain that follows
the scan: one conditional per declared field, in declaration order,
threading `should_create`. -/
def missingLoop (dbc : DBType) (tn : String) (found : List String) :
    List Field → Bool → List Event × Bool
  | [], sc => ([], sc)
  | x :: rest, sc =>
    if !sc && !(found.contains x.name) then
      if x.isPrimaryKey then
        let r := missingLoop dbc tn found rest true
        (.ask (tn ++ ": new primary key " ++ x.name
               ++ " missing, need to rebuild database.") :: r.1, r.2)
      else
        let r := missingLoop dbc tn found rest sc
        (.query dbc (.migrate tn (.AddColumn x.name (getWriteSQLType x))) :: r.1, r.2)
    else
      missingLoop dbc tn found rest sc

/-- The events the `if (should_create)` rebuild block performs. -/
def rebuildEvents (dbc : DBType) (tn : String) (fields : List Field)
    (sc : Bool) : List Event :=
  if sc then
    [.query dbc (.migrate tn .DropTableIfExists),
     .query dbc (.migrate tn (.CreateTable fields))]
  else []

/-- The trailing `UPDATE ... SET <f> = <default> WHERE <f> IS NULL`
statements; the emitter writes them after the `if (should_create)`
block closes, so they run on every reconciliation. -/
def backfillEvents (dbc : DBType) (tn : String) (fields : List Field) :
    List Event :=
  (fields.filter (fun f => !f.isPrimaryKey)).map
    (fun f => Event.query dbc (.migrate tn (.BackfillDefault f)))

/-- Runtime behaviour of the C++ emitted by `tableGeneration` for one
table: `should_create` starts true; if the catalog has rows it is reset
to false and the scan plus missing-field chain run; the rebuild block
runs when `should_create` ends up true; the backfills always run.
Returns the events and the final `should_create`. -/
def tableGeneration (dbc : DBType) (tn : String) (fields : List Field)
    (observed : List ColumnObservation) : List Event × Bool :=
  let intro : Event := .query .world (.introspectColumns tn)
  if observed.isEmpty then
    (intro :: rebuildEvents dbc tn fields true ++ backfillEvents dbc tn fields, true)
  else
    let s := scanLoop dbc tn fields observed
    let m := missingLoop dbc tn s.2.1 fields s.2.2
    (intro :: (s.1 ++ m.1 ++ rebuildEvents dbc tn fields m.2
               ++ backfillEvents dbc tn fields), m.2)

/-- The migration steps among a list of events, in execution order. -/
def planOf (evs : List Event) : List MigrationStep :=
  evs.filterMap (fun e =>
    match e with
    | .query _ (.migrate _ s) => some s
    | _ => none)

/-- The executed migration plan of one reconciliation run. -/
def tableGenPlan (dbc : DBType) (tn : String) (fields : List Field)
    (observed : List ColumnObservation) : List MigrationStep :=
  planOf (tableGeneration dbc tn fields observed).1

/-- Number of `ask(...)` confirmation messages in a run. -/
def askCount (evs : List Event) : Nat :=
  evs.countP (fun e => match e with | .ask _ => true | _ => false)

/-! ### Entity-model construction (`handleClass`) -/

/-- `class DBDictionary` without its back-reference to the owner (the
owner is the entry holding it); `db_name` is computed from both. -/
structure DBDictionary where
  name : String
  keyType : FieldType
  valueType : FieldType
deriving DecidableEq, Repr

/-- `class Entry`: a declared entity. -/
structure Entry where
  className : String
  databaseType : DBType
  fields : List Field
  dictionaries : List DBDictionary
deriving DecidableEq, Repr

/-- `DBDictionary.db_name`: subordinate table name. -/
def db_name (e : Entry) (d : DBDictionary) : String :=
  lowerStr e.className ++ "_" ++ lowerStr d.name

/-- A class property as `handleClass` sees it after decorator
inspection: name and type source text, whether `@Field` / `@PrimaryKey`
were present, and the initializer text if any. -/
structure MemberDecl where
  name : String
  typeText : String
  isField : Bool
  isPrimaryKey : Bool
  initializer : Option String
deriving DecidableEq, Repr

/-- The `type.split('<')[1].split('>')[0].split(',')` extraction of the
`TSDBDict` type arguments. -/
def parseDictArgs (t : String) : List String :=
  let afterLt := ((splitChar '<' t.data).drop 1).headD []
  let inner := (splitChar '>' afterLt).headD []
  (splitChar ',' inner).map (fun l => ⟨l⟩)

/-- Processing of one member in `handleClass`'s member loop: `TSDBDict`
properties become dictionaries after their type arguments are checked
against `MethodTypes`; other `@Field` properties become scalar fields
after type, string-primary-key and initializer validation.  (A
`TSDBDict` with fewer than two type arguments is treated as invalid.) -/
def processMember (e : Entry) (m : MemberDecl) : Except String Entry :=
  if !m.isField then .ok e
  else if strStarts "TSDBDict" m.typeText then
    let typeargs := parseDictArgs m.typeText
    if typeargs.all (fun ta => (methodTypeOf ta).isSome) then
      match methodTypeOf (typeargs.headD ""), methodTypeOf ((typeargs.drop 1).headD "") with
      | some k, some v =>
          .ok { e with dictionaries := e.dictionaries ++ [⟨m.name, k, v⟩] }
      | _, _ => .error ("Invalid type for database dict: " ++ m.typeText)
    else .error ("Invalid type for database dict: " ++ m.typeText)
  else
    match methodTypeOf m.typeText with
    | none => .error ("Invalid type for database field: " ++ m.typeText)
    | some t =>
      if t == .string && m.isPrimaryKey then
        .error "Strings cannot be primary keys (yet)"
      else
        match m.initializer with
        | none => .error "Database fields must be initialized (= something in the declaration)"
        | some init =>
            .ok { e with fields := e.fields ++ [Field.mk m.name t m.isPrimaryKey init] }

/-- `handleClass`'s model construction for one decorated class: fold the
members, then reject entries without a primary key. -/
def buildEntry (className : String) (db : DBType) (members : List MemberDecl) :
    Except String Entry := do
  let e ← members.foldlM processMember ⟨className, db, [], []⟩
  if (e.fields.filter (fun f => f.isPrimaryKey)).isEmpty then
    .error "Database rows must have at least one primary key."
  else
    .ok e

/-- The column list of a dictionary's subordinate table, as built in
`writeTableCreationFile`: the owner's primary-key fields, then a
`map_key` primary-key column of the dictionary's key type, then a
`map_value` column of its value type. -/
def subFields (e : Entry) (d : DBDictionary) : List Field :=
  e.fields.filter (fun f => f.isPrimaryKey)
  ++ [Field.mk "map_key" d.keyType true "",
      Field.mk "map_value" d.valueType false
        (if d.valueType == .string then "\"\"" else "0")]

/-- Reconciliation events of one entity and its subordinate tables, as
`writeTableCreationFile` emits them: the entity's table, then each
dictionary's table, all on the entity's own database connection.  The
catalog contents are a per-table input, `obsOf`. -/
def entryEvents (obsOf : String → List ColumnObservation) (e : Entry) :
    List Event :=
  (tableGeneration e.databaseType e.className e.fields (obsOf e.className)).1
  ++ ((e.dictionaries.map (fun d =>
        (tableGeneration e.databaseType (db_name e d) (subFields e d)
          (obsOf (db_name e d))).1)).flatten)

/-- `WriteTables()`: reconciliation of every declared entry in order. -/
def writeTables (obsOf : String → List ColumnObservation)
    (es : List Entry) : List Event :=
  (es.map (entryEvents obsOf)).flatten

/-! ### Generated query strings (`handleClass`)

The generated C++ query methods build their SQL by concatenating string
literals with the entity's field values (`this-><field>`), which render
as decimal text for numeric fields and as raw text for string fields.
We model an entity instance by the rendered text of each field value,
`vals : String → String` keyed by field name, and give each generated
method as the SQL string it returns at runtime. -/

/-- How `saveQuery` renders one field value: string fields are wrapped
in escaped double quotes, other fields are spliced bare. -/
def renderVal (f : Field) (v : String) : String :=
  if f.type == .string then "\"" ++ v ++ "\"" else v

/-- The `WHERE` predicate both `loadQuery` and `removeQuery` build over
the primary-key fields: backticked column name, ` = `, bare value. -/
def pkPredicate (pks : List Field) (vals : String → String) : String :=
  joinSep " AND " (pks.map (fun f => "`" ++ f.name ++ "` = " ++ vals f.name))

/-- Runtime result of the generated `loadQuery()` member: uppercase
`FROM`, table name = the class name as declared, unquoted values. -/
def loadQuery (className : String) (fields : List Field)
    (vals : String → String) : String :=
  "SELECT * FROM `" ++ className ++ "` WHERE "
  ++ pkPredicate (fields.filter (fun f => f.isPrimaryKey)) vals
  ++ ";"

/-- The positional `VALUES` list of the generated `saveQuery()`. -/
def saveValuesClause (fields : List Field) (vals : String → String) : String :=
  joinSep " , " (fields.map (fun f => renderVal f (vals f.name)))

/-- The `ON DUPLICATE KEY UPDATE` list of the generated `saveQuery()`:
built from `entry.fields`, i.e. from every declared field. -/
def saveUpdateClause (fields : List Field) (vals : String → String) : String :=
  joinSep " , " (fields.map (fun f => "`" ++ f.name ++ "` = " ++ renderVal f (vals f.name)))

/-- Runtime result of the generated `saveQuery()` member: table name is
the lowercased class name. -/
def saveQuery (className : String) (fields : List Field)
    (vals : String → String) : String :=
  "INSERT INTO `" ++ lowerStr className ++ "` VALUES ( "
  ++ saveValuesClause fields vals
  ++ ") ON DUPLICATE KEY UPDATE "
  ++ saveUpdateClause fields vals
  ++ ";"

/-- Runtime result of the generated `removeQuery()` member: table name
is the lowercased class name. -/
def removeQuery (className : String) (fields : List Field)
    (vals : String → String) : String :=
  "DELETE FROM `" ++ lowerStr className ++ "` WHERE "
  ++ pkPredicate (fields.filter (fun f => f.isPrimaryKey)) vals
  ++ ";"

/-- Runtime result of the generated static `LoadQuery(query)` member:
lowercase `from`, lowercased class name, no backticks. -/
def LoadQuery (className : String) (query : String) : String :=
  "SELECT * from " ++ lowerStr className ++ " WHERE " ++ query ++ ";"

/-! ### Sub-map delta flush (generated `save()`)

The generated `save()` runs, for each `TSDBDict` member, an upsert for
every dirty map entry, then a `DELETE` for every erased key, then
`<dict>->clear()`.  The `TSDBDict` container itself lives in the TSWoW
runtime (`TSDatabase.h`), which is not part of this repository, so its
delta bookkeeping is modelled from the spec. -/

/-- Modelled from the spec: the per-instance delta state of a loaded
sub-map (`TSDBDict` of the TSWoW runtime, not in this repository) —
key/value entries each carrying a `_dirty` flag, plus the erased-key
set. -/
structure DictState (K V : Type) where
  entries : List (K × V × Bool)
  erases : List K
deriving DecidableEq, Repr

/-- Keys with the `_dirty` flag set. -/
def dirtyKeys {K V : Type} (s : DictState K V) : List K :=
  (s.entries.filter (fun e => e.2.2)).map (fun e => e.1)

/-- The erased-key set. -/
def erasedKeys {K V : Type} (s : DictState K V) : List K :=
  s.erases

/-- One statement of the generated flush: a subordinate-table upsert
for a dirty key, a subordinate-table `DELETE` for an erased key, or the
final `clear()` of the delta state. -/
inductive FlushOp (K V : Type) where
  | upsert (k : K) (v : V)
  | eraseRow (k : K)
  | clearDeltas
deriving DecidableEq, Repr

/-- The statement sequence the generated `save()` runs for one sub-map:
upserts for the dirty entries in map order, then deletes for the erased
keys, then the `clear()`. -/
def flushOps {K V : Type} (s : DictState K V) : List (FlushOp K V) :=
  (s.entries.filter (fun e => e.2.2)).map (fun e => FlushOp.upsert e.1 e.2.1)
  ++ s.erases.map FlushOp.eraseRow
  ++ [FlushOp.clearDeltas]

/-- Modelled from the spec: effect of one flush statement on the
in-memory delta state — the database statements do not touch it, and
`clear()` resets every `_dirty` flag and empties the erased-key set
("map transitions to clean"). -/
def applyOp {K V : Type} (s : DictState K V) : FlushOp K V → DictState K V
  | .clearDeltas => ⟨s.entries.map (fun e => (e.1, e.2.1, false)), []⟩
  | _ => s

/-- Delta state after the first `n` flush statements have executed; a
failing statement halts the run, so a failure at statement `n` leaves
exactly this state. -/
def execFlush {K V : Type} (s : DictState K V) (n : Nat) : DictState K V :=
  ((flushOps s).take n).foldl applyOp s

/-- Recognizers for flush statements. -/
def isUpsert {K V : Type} : FlushOp K V → Bool
  | .upsert _ _ => true
  | _ => false

def isEraseRow {K V : Type} : FlushOp K V → Bool
  | .eraseRow _ => true
  | _ => false

def isClearDeltas {K V : Type} : FlushOp K V → Bool
  | .clearDeltas => true
  | _ => false

/-- Recognizer for backfill plan steps. -/
def isBackfill : MigrationStep → Bool
  | .BackfillDefault _ => true
  | _ => false

/-! ### Concrete fixtures

The `Player` entity of the spec's examples:
`Player{id:uint32 pk, name:string="", gold:uint32=0}`. -/

def playerId : Field := ⟨"id", .uint32, true, "0"⟩

def playerName : Field := ⟨"name", .string, false, "\"\""⟩

def playerGold : Field := ⟨"gold", .uint32, false, "0"⟩

def playerFields : List Field := [playerId, playerName, playerGold]

/-- Rendered field values of one concrete `Player` instance. -/
def playerVals : String → String := fun n =>
  if n == "id" then "5" else if n == "name" then "Bob" else "7"

/-! ### Supporting lemmas -/

theorem planOf_append (a b : List Event) :
    planOf (a ++ b) = planOf a ++ planOf b := by
  simp [planOf]

theorem planOf_query_map {α : Type} (dbc : DBType) (tn : String)
    (g : α → MigrationStep) (l : List α) :
    planOf (l.map (fun x => Event.query dbc (.migrate tn (g x)))) = l.map g := by
  induction l with
  | nil => rfl
  | cons x rest ih => simp [planOf] at ih ⊢; exact ih

theorem planOf_backfill (dbc : DBType) (tn : String) (fs : List Field) :
    planOf (backfillEvents dbc tn fs)
      = (fs.filter (fun f => !f.isPrimaryKey)).map .BackfillDefault := by
  exact planOf_query_map dbc tn _ _

theorem planOf_rebuild (dbc : DBType) (tn : String) (fs : List Field) (sc : Bool) :
    planOf (rebuildEvents dbc tn fs sc)
      = if sc then [.DropTableIfExists, .CreateTable fs] else [] := by
  cases sc <;> simp [planOf, rebuildEvents]

/-- Once `should_create` is true, the missing-field chain does nothing:
every `if( !should_create && ... )` guard fails. -/
theorem missingLoop_true (dbc : DBType) (tn : String) (found : List String) :
    ∀ fs : List Field, missingLoop dbc tn found fs true = ([], true) := by
  intro fs
  induction fs with
  | nil => rfl
  | cons x rest ih => simp [missingLoop, ih]

/-- The final `should_create` of the missing-field chain is monotone:
it stays true once true. -/
theorem missingLoop_sc_mono (dbc : DBType) (tn : String) (found : List String) :
    ∀ (fs : List Field) (sc : Bool), sc = true →
      (missingLoop dbc tn found fs sc).2 = true := by
  intro fs sc h
  subst h
  rw [missingLoop_true]

/-- A scan over a prefix that did not `break` composes with the scan of
the remaining rows. -/
theorem scanLoop_append (dbc : DBType) (tn : String) (fs : List Field) :
    ∀ (pre rest : List ColumnObservation),
      (scanLoop dbc tn fs pre).2.2 = false →
      scanLoop dbc tn fs (pre ++ rest)
        = ((scanLoop dbc tn fs pre).1 ++ (scanLoop dbc tn fs rest).1,
           (scanLoop dbc tn fs pre).2.1 ++ (scanLoop dbc tn fs rest).2.1,
           (scanLoop dbc tn fs rest).2.2) := by
  intro pre
  induction pre with
  | nil => intro rest _; simp [scanLoop]
  | cons o pre ih =>
    intro rest h
    by_cases hb : (scanObs dbc tn fs o).2 = true
    · exfalso
      simp [scanLoop, hb] at h
    · simp only [Bool.not_eq_true] at hb
      simp only [scanLoop, hb, List.cons_append, if_false, Bool.false_eq_true,
        List.append_eq] at h ⊢
      rw [ih rest h]
      simp

/-- The scan and missing-field phases never produce a backfill step:
per-iteration form for the scan. -/
theorem scanObs_no_backfill (dbc : DBType) (tn : String) (fs : List Field)
    (o : ColumnObservation) :
    (planOf (scanObs dbc tn fs o).1).all (fun s => !isBackfill s) = true := by
  unfold scanObs
  cases fs.find? (fun f => f.name == o.name) with
  | none => simp [planOf, isBackfill]
  | some f =>
    by_cases h1 : (upperStr o.rawType == getReadSQLType f) = true
    · simp [h1, planOf]
    · by_cases h2 : (f.type == FieldType.string) = true
      · simp [h1, h2, planOf, isBackfill]
      · by_cases h3 : (upperStr o.rawType == "TEXT") = true
        · simp [h1, h2, h3, planOf, isBackfill]
        · by_cases h4 : o.isPrimaryKeyMember = true
          · simp [h1, h2, h3, h4, planOf]
          · simp [h1, h2, h3, h4, planOf, isBackfill]

theorem scanLoop_no_backfill (dbc : DBType) (tn : String) (fs : List Field) :
    ∀ obs : List ColumnObservation,
      (planOf (scanLoop dbc tn fs obs).1).all (fun s => !isBackfill s) = true := by
  intro obs
  induction obs with
  | nil => rfl
  | cons o rest ih =>
    have h := scanObs_no_backfill dbc tn fs o
    by_cases hb : (scanObs dbc tn fs o).2 = true
    · simp [scanLoop, hb, h]
    · simp only [Bool.not_eq_true] at hb
      simp [scanLoop, hb, planOf_append, List.all_append, h, ih]

theorem missingLoop_no_backfill (dbc : DBType) (tn : String) (found : List String) :
    ∀ (fs : List Field) (sc : Bool),
      (planOf (missingLoop dbc tn found fs sc).1).all (fun s => !isBackfill s) = true := by
  intro fs
  induction fs with
  | nil => intro sc; rfl
  | cons x rest ih =>
    intro sc
    cases sc with
    | true => simpa [missingLoop] using ih true
    | false =>
      by_cases hf : x.name ∈ found
      · simpa [missingLoop, hf] using ih false
      · by_cases hp : x.isPrimaryKey = true
        · simpa [missingLoop, hf, hp, planOf] using ih true
        · simp only [Bool.not_eq_true] at hp
          simpa [missingLoop, hf, hp, planOf, isBackfill] using ih false

/-- On a non-empty catalog the final `should_create` is the one the
missing-field chain returns. -/
theorem tableGen_snd (dbc : DBType) (tn : String) (fs : List Field)
    (obs : List ColumnObservation) (h : obs.isEmpty = false) :
    (tableGeneration dbc tn fs obs).2
      = (missingLoop dbc tn (scanLoop dbc tn fs obs).2.1 fs
          (scanLoop dbc tn fs obs).2.2).2 := by
  simp [tableGeneration, h]

/-- On a non-empty catalog the executed plan decomposes into the scan
steps, the missing-field steps, the conditional rebuild pair and the
unconditional backfills. -/
theorem tableGenPlan_nonempty (dbc : DBType) (tn : String) (fs : List Field)
    (obs : List ColumnObservation) (h : obs.isEmpty = false) :
    tableGenPlan dbc tn fs obs
      = planOf (scanLoop dbc tn fs obs).1
        ++ planOf (missingLoop dbc tn (scanLoop dbc tn fs obs).2.1 fs
             (scanLoop dbc tn fs obs).2.2).1
        ++ (if (missingLoop dbc tn (scanLoop dbc tn fs obs).2.1 fs
                 (scanLoop dbc tn fs obs).2.2).2
            then [MigrationStep.DropTableIfExists, MigrationStep.CreateTable fs] else [])
        ++ (fs.filter (fun f => !f.isPrimaryKey)).map .BackfillDefault := by
  show planOf (tableGeneration dbc tn fs obs).1 = _
  simp only [tableGeneration, h, Bool.false_eq_true, if_false]
  rw [show ∀ a b c d : List Event, Event.query DBType.world (Stmt.introspectColumns tn)
        :: (a ++ b ++ c ++ d)
      = (([Event.query DBType.world (Stmt.introspectColumns tn)] ++ a) ++ b ++ c) ++ d
      by intro a b c d; simp]
  rw [planOf_append, planOf_append, planOf_append, planOf_backfill, planOf_rebuild]
  simp [planOf]

/-- **C3 (corrected).** On an empty catalog (`rows->GetRow()` false the
first time) the run keeps `should_create = true`, so it executes
`DROP TABLE IF EXISTS` before `CREATE TABLE`, then the unconditional
default backfills for every non-primary-key field; no `ask(...)`
confirmation message is issued.  (The claim's plan `[CreateTable]` with
`rebuildTriggered = false` is not what the code does.) -/
theorem empty_catalog_creates (dbc : DBType) (tn : String) (fs : List Field) :
    (tableGeneration dbc tn fs []).2 = true
    ∧ tableGenPlan dbc tn fs []
        = MigrationStep.DropTableIfExists :: MigrationStep.CreateTable fs
          :: (fs.filter (fun f => !f.isPrimaryKey)).map .BackfillDefault
    ∧ askCount (tableGeneration dbc tn fs []).1 = 0 := by
  refine ⟨rfl, ?_, ?_⟩
  · show planOf (tableGeneration dbc tn fs []).1 = _
    simp only [tableGeneration, List.isEmpty_nil, if_true]
    rw [show Event.query DBType.world (Stmt.introspectColumns tn)
          :: rebuildEvents dbc tn fs true ++ backfillEvents dbc tn fs
        = ([Event.query DBType.world (Stmt.introspectColumns tn)]
           ++ rebuildEvents dbc tn fs true) ++ backfillEvents dbc tn fs by simp,
      planOf_append, planOf_append, planOf_backfill, planOf_rebuild]
    rfl
  · simp only [tableGeneration, List.isEmpty_nil, if_true]
    have : ∀ l : List Field,
        askCount (backfillEvents dbc tn l) = 0 := by
      intro l
      simp [askCount, backfillEvents, List.countP_eq_zero]
    simp [askCount, rebuildEvents] at this ⊢
    exact this fs

/-- **C3 counterexample.** For the spec's `Player` entity on an empty
catalog the plan is not `[CreateTable(fields)]` with
`rebuildTriggered = false`: the run starts with `DropTableIfExists`,
appends backfills, and reports `should_create = true`. -/
theorem empty_catalog_claim_false :
    ¬ (tableGenPlan .world "Player" playerFields []
         = [MigrationStep.CreateTable playerFields]
       ∧ (tableGeneration .world "Player" playerFields []).2 = false) := by
  decide

/-- **C4 (corrected).** The backfill steps are not tied to the rebuild:
the executed plan is always the scan steps (in order produced), then
the missing-field additions, then — only when `should_create` ended up
true — `DropTableIfExists; CreateTable` , and then unconditionally one
`BackfillDefault` per non-primary-key field; no backfill ever occurs
among the scan or missing-field steps. -/
theorem plan_decomposition (dbc : DBType) (tn : String) (fs : List Field)
    (obs : List ColumnObservation) :
    tableGenPlan dbc tn fs obs
      = (if obs.isEmpty then [MigrationStep.DropTableIfExists, MigrationStep.CreateTable fs]
         else
           planOf (scanLoop dbc tn fs obs).1
           ++ planOf (missingLoop dbc tn (scanLoop dbc tn fs obs).2.1 fs
                (scanLoop dbc tn fs obs).2.2).1
           ++ (if (missingLoop dbc tn (scanLoop dbc tn fs obs).2.1 fs
                    (scanLoop dbc tn fs obs).2.2).2
               then [MigrationStep.DropTableIfExists, MigrationStep.CreateTable fs] else []))
        ++ (fs.filter (fun f => !f.isPrimaryKey)).map .BackfillDefault
    ∧ ((planOf (scanLoop dbc tn fs obs).1
        ++ planOf (missingLoop dbc tn (scanLoop dbc tn fs obs).2.1 fs
             (scanLoop dbc tn fs obs).2.2).1).all (fun s => !isBackfill s)) = true := by
  constructor
  · show planOf (tableGeneration dbc tn fs obs).1 = _
    by_cases he : obs.isEmpty = true
    · simp only [tableGeneration, he, if_true]
      rw [show Event.query DBType.world (Stmt.introspectColumns tn)
            :: rebuildEvents dbc tn fs true ++ backfillEvents dbc tn fs
          = ([Event.query DBType.world (Stmt.introspectColumns tn)]
             ++ rebuildEvents dbc tn fs true) ++ backfillEvents dbc tn fs by simp,
        planOf_append, planOf_append, planOf_backfill, planOf_rebuild]
      rfl
    · simp only [Bool.not_eq_true] at he
      simp only [tableGeneration, he, Bool.false_eq_true, if_false]
      rw [show ∀ a b c d : List Event, Event.query DBType.world (Stmt.introspectColumns tn)
            :: (a ++ b ++ c ++ d)
          = (([Event.query DBType.world (Stmt.introspectColumns tn)] ++ a) ++ b ++ c) ++ d
          by intro a b c d; simp]
      rw [planOf_append, planOf_append, planOf_append, planOf_backfill, planOf_rebuild]
      simp [planOf]
  · rw [List.all_append]
    simp [scanLoop_no_backfill, missingLoop_no_backfill]

/-- **C4 counterexample.** With the `Player` entity and a catalog that
matches the declaration exactly, `should_create` ends false and the
scan produced no steps, yet the executed plan still contains the
`BackfillDefault` steps — contradicting "whenever rebuild is false the
final plan ... contains no BackfillDefault step". -/
theorem backfill_without_rebuild :
    (tableGeneration .world "Player" playerFields
        [⟨"id", "INT(10) UNSIGNED", true⟩, ⟨"name", "TEXT", false⟩,
         ⟨"gold", "INT(10) UNSIGNED", false⟩]).2 = false
    ∧ tableGenPlan .world "Player" playerFields
        [⟨"id", "INT(10) UNSIGNED", true⟩, ⟨"name", "TEXT", false⟩,
         ⟨"gold", "INT(10) UNSIGNED", false⟩]
      = [.BackfillDefault playerName, .BackfillDefault playerGold] := by
  exact ⟨rfl, rfl⟩

/-! ### Substring-occurrence lemmas -/

theorem chPref_self_append : ∀ n m : List Char, chPref n (n ++ m) = true := by
  intro n
  induction n with
  | nil => intro m; rfl
  | cons a as ih => intro m; simp [chPref, ih]

theorem chOccursL_self_append : ∀ n m : List Char, chOccursL n (n ++ m) = true := by
  intro n m
  cases n with
  | nil =>
    cases m with
    | nil => rfl
    | cons c r => simp [chOccursL, chPref]
  | cons a as =>
    have h := chPref_self_append (a :: as) m
    simp only [chOccursL, List.cons_append] at h ⊢
    simp [h]

theorem chOccursL_cons (n h : List Char) (c : Char)
    (hh : chOccursL n h = true) : chOccursL n (c :: h) = true := by
  simp [chOccursL, hh]

theorem chOccursL_infix : ∀ a n b : List Char, chOccursL n (a ++ (n ++ b)) = true := by
  intro a
  induction a with
  | nil => intro n b; simpa using chOccursL_self_append n b
  | cons c r ih => intro n b; exact chOccursL_cons _ _ _ (ih n b)

/-- A substring occurs in any string of which it is a middle part. -/
theorem chOccurs_parts (a n b hay : String) (h : hay = a ++ (n ++ b)) :
    chOccurs n hay = true := by
  subst h
  show chOccursL n.data (a ++ (n ++ b)).data = true
  rw [String.data_append, String.data_append]
  exact chOccursL_infix a.data n.data b.data

/-! ### C5, C2, C9: generated query text -/

/-- Modelled from the spec: the load-statement format the spec's §6
"Generated statement text" prescribes —
`SELECT * FROM \`<table>\` WHERE <pk1> = "<v1>" AND ...;` with the
primary-key values wrapped in double quotes.  Used only for comparison
with the source-derived `loadQuery`. -/
def loadQuerySpec (className : String) (fields : List Field)
    (vals : String → String) : String :=
  "SELECT * FROM `" ++ className ++ "` WHERE "
  ++ joinSep " AND "
       ((fields.filter (fun f => f.isPrimaryKey)).map
         (fun f => f.name ++ " = \"" ++ vals f.name ++ "\""))
  ++ ";"

/-- **C5 (corrected).** The generated instance `loadQuery()` does use
uppercase `FROM` and a backticked table name (the class name as
declared), but the predicate renders each primary key as
`` `<pk>` = <value> `` with the column name backticked and the value
spliced bare, not wrapped in quotes; the static `LoadQuery(query)`
variant uses lowercase `from` and the lowercased, unbackticked class
name. -/
theorem loadQuery_format (cn : String) (fs : List Field)
    (vals : String → String) (q : String) :
    loadQuery cn fs vals
      = "SELECT * FROM `" ++ cn ++ "` WHERE "
        ++ joinSep " AND "
             ((fs.filter (fun f => f.isPrimaryKey)).map
               (fun f => "`" ++ f.name ++ "` = " ++ vals f.name))
        ++ ";"
    ∧ LoadQuery cn q = "SELECT * from " ++ lowerStr cn ++ " WHERE " ++ q ++ ";" := by
  exact ⟨rfl, rfl⟩

/-- **C5 counterexample.** For the `Player` fixture the generated load
text is `` SELECT * FROM `Player` WHERE `id` = 5; `` — not the claimed
literal form with an unbackticked column name and the value in escaped
double quotes. -/
theorem loadQuery_not_spec_format :
    loadQuery "Player" playerFields playerVals
        = "SELECT * FROM `Player` WHERE `id` = 5;"
    ∧ loadQuerySpec "Player" playerFields playerVals
        = "SELECT * FROM `Player` WHERE id = \"5\";"
    ∧ loadQuery "Player" playerFields playerVals
        ≠ loadQuerySpec "Player" playerFields playerVals := by
  exact ⟨rfl, rfl, by decide⟩

/-- Modelled from the spec: the save-statement format the spec
prescribes, whose `ON DUPLICATE KEY UPDATE` list holds only the
non-primary-key fields.  Used only for comparison with the
source-derived `saveQuery`. -/
def saveQuerySpec (className : String) (fields : List Field)
    (vals : String → String) : String :=
  "INSERT INTO `" ++ lowerStr className ++ "` VALUES ( "
  ++ saveValuesClause fields vals
  ++ ") ON DUPLICATE KEY UPDATE "
  ++ joinSep " , "
       ((fields.filter (fun f => !f.isPrimaryKey)).map
         (fun f => "`" ++ f.name ++ "` = " ++ renderVal f (vals f.name)))
  ++ ";"

/-- **C2 (corrected).** The generated `saveQuery()` inserts every field
positionally in declaration order with string values quoted and other
values bare, but its `ON DUPLICATE KEY UPDATE` clause is built from
`entry.fields`, i.e. it contains an assignment for *every* declared
field — primary-key fields included. -/
theorem saveQuery_format (cn : String) (fs : List Field)
    (vals : String → String) :
    saveQuery cn fs vals
      = "INSERT INTO `" ++ lowerStr cn ++ "` VALUES ( "
        ++ joinSep " , " (fs.map (fun f => renderVal f (vals f.name)))
        ++ ") ON DUPLICATE KEY UPDATE "
        ++ joinSep " , " (fs.map (fun f => "`" ++ f.name ++ "` = " ++ renderVal f (vals f.name)))
        ++ ";"
    ∧ (∀ f : Field, ∀ v : String,
        renderVal f v = if f.type == .string then "\"" ++ v ++ "\"" else v) := by
  exact ⟨rfl, fun _ _ => rfl⟩

/-- **C2 counterexample.** For the `Player` fixture the generated
update clause assigns the primary key `id` as well, so the save text
differs from the spec's non-primary-key-only format. -/
theorem saveQuery_not_spec_format :
    saveQuery "Player" playerFields playerVals
        = "INSERT INTO `player` VALUES ( 5 , \"Bob\" , 7) ON DUPLICATE KEY UPDATE `id` = 5 , `name` = \"Bob\" , `gold` = 7;"
    ∧ saveQuerySpec "Player" playerFields playerVals
        = "INSERT INTO `player` VALUES ( 5 , \"Bob\" , 7) ON DUPLICATE KEY UPDATE `name` = \"Bob\" , `gold` = 7;"
    ∧ saveQuery "Player" playerFields playerVals
        ≠ saveQuerySpec "Player" playerFields playerVals := by
  exact ⟨rfl, rfl, by decide⟩

/-- **C9 (corrected).** The instance load query references the class
name exactly as declared, while the save and remove queries (and the
static `LoadQuery`) reference the lowercased class name; the queries
only target one and the same table name when the class name is already
lowercase. -/
theorem query_table_names (cn : String) (fs : List Field)
    (vals : String → String) (q : String) :
    chOccurs ("`" ++ cn ++ "`") (loadQuery cn fs vals) = true
    ∧ chOccurs ("`" ++ lowerStr cn ++ "`") (saveQuery cn fs vals) = true
    ∧ chOccurs ("`" ++ lowerStr cn ++ "`") (removeQuery cn fs vals) = true
    ∧ chOccurs (" " ++ lowerStr cn ++ " ") (LoadQuery cn q) = true := by
  refine ⟨?_, ?_, ?_, ?_⟩
  · refine chOccurs_parts "SELECT * FROM " _
      (" WHERE " ++ (pkPredicate (fs.filter (fun f => f.isPrimaryKey)) vals ++ ";")) _
      (String.ext ?_)
    simp only [loadQuery, String.data_append]
    simp [List.append_assoc]
  · refine chOccurs_parts "INSERT INTO " _
      (" VALUES ( " ++ (saveValuesClause fs vals
        ++ (") ON DUPLICATE KEY UPDATE " ++ (saveUpdateClause fs vals ++ ";")))) _
      (String.ext ?_)
    simp only [saveQuery, String.data_append]
    simp [List.append_assoc]
  · refine chOccurs_parts "DELETE FROM " _
      (" WHERE " ++ (pkPredicate (fs.filter (fun f => f.isPrimaryKey)) vals ++ ";")) _
      (String.ext ?_)
    simp only [removeQuery, String.data_append]
    simp [List.append_assoc]
  · refine chOccurs_parts "SELECT * from" _
      ("WHERE " ++ (q ++ ";")) _
      (String.ext ?_)
    simp only [LoadQuery, String.data_append]
    simp [List.append_assoc]

/-- **C9 counterexample.** For class name `Player` the load query
targets `` `Player` `` while the save and remove queries target
`` `player` `` and never mention `` `Player` ``: the three queries do
not reference one and the same table name. -/
theorem query_table_names_disagree :
    chOccurs "`Player`" (loadQuery "Player" playerFields playerVals) = true
    ∧ chOccurs "`Player`" (saveQuery "Player" playerFields playerVals) = false
    ∧ chOccurs "`player`" (saveQuery "Player" playerFields playerVals) = true
    ∧ chOccurs "`Player`" (removeQuery "Player" playerFields playerVals) = false
    ∧ chOccurs "`player`" (removeQuery "Player" playerFields playerVals) = true := by
  exact ⟨rfl, rfl, rfl, rfl, rfl⟩

/-! ### C1: rebuild on primary-key type drift -/

/-- The `was_pk` branch: a matched column whose uppercased catalog type
differs from the read rendering, is not `TEXT`, and belongs to the
table's primary key, emits only the key-usage lookup and the
confirmation, sets `should_create` and breaks. -/
theorem scanObs_pk_break (dbc : DBType) (tn : String) (fs : List Field)
    (o : ColumnObservation) (f : Field)
    (hfind : fs.find? (fun x => x.name == o.name) = some f)
    (hne : upperStr o.rawType ≠ getReadSQLType f)
    (hstr : f.type ≠ .string)
    (htext : upperStr o.rawType ≠ "TEXT")
    (hpk : o.isPrimaryKeyMember = true) :
    scanObs dbc tn fs o
      = ([.query .world (.introspectKeyUsage tn o.name),
          .ask (tn ++ ":" ++ o.name ++ " changed type from " ++ upperStr o.rawType
                ++ " to " ++ fieldTypeName f.type
                ++ " and was a primary key (whole db will be destroyed)")], true) := by
  unfold scanObs
  rw [hfind]
  simp [hne, hstr, htext, hpk]

/-- **C1 (corrected).** When the scan reaches a primary-key column
whose observed type differs from its read rendering (and is not
`TEXT`) with `was_pk` true, `should_create` is set, the scan stops, the
missing-field chain is skipped, and the run finishes with
`DropTableIfExists; CreateTable(fields)` plus the backfills.  However,
the migration steps already executed for the catalog rows scanned
before that column are *not* discarded: they remain at the front of the
executed plan. -/
theorem pk_drift_rebuild (dbc : DBType) (tn : String) (fs : List Field)
    (pre post : List ColumnObservation) (o : ColumnObservation) (f : Field)
    (hpre : (scanLoop dbc tn fs pre).2.2 = false)
    (hfind : fs.find? (fun x => x.name == o.name) = some f)
    (_hfpk : f.isPrimaryKey = true)
    (hne : upperStr o.rawType ≠ getReadSQLType f)
    (hstr : f.type ≠ .string)
    (htext : upperStr o.rawType ≠ "TEXT")
    (hpk : o.isPrimaryKeyMember = true) :
    (tableGeneration dbc tn fs (pre ++ o :: post)).2 = true
    ∧ tableGenPlan dbc tn fs (pre ++ o :: post)
        = planOf (scanLoop dbc tn fs pre).1
          ++ [MigrationStep.DropTableIfExists, MigrationStep.CreateTable fs]
          ++ (fs.filter (fun x => !x.isPrimaryKey)).map .BackfillDefault := by
  have hobs : scanObs dbc tn fs o
      = ([.query .world (.introspectKeyUsage tn o.name),
          .ask (tn ++ ":" ++ o.name ++ " changed type from " ++ upperStr o.rawType
                ++ " to " ++ fieldTypeName f.type
                ++ " and was a primary key (whole db will be destroyed)")], true) :=
    scanObs_pk_break dbc tn fs o f hfind hne hstr htext hpk
  have hsplit := scanLoop_append dbc tn fs pre (o :: post) hpre
  have hcons : scanLoop dbc tn fs (o :: post)
      = ((scanObs dbc tn fs o).1,
         if (fs.any fun x => x.name == o.name) = true then [o.name] else [], true) := by
    simp only [scanLoop, hobs]
    simp
  have hsc : (scanLoop dbc tn fs (pre ++ o :: post)).2.2 = true := by
    rw [hsplit, hcons]
  have hne' : (pre ++ o :: post).isEmpty = false := by
    cases pre <;> rfl
  have hmiss := missingLoop_true dbc tn (scanLoop dbc tn fs (pre ++ o :: post)).2.1 fs
  constructor
  · simp only [tableGeneration, hne', Bool.false_eq_true, if_false]
    simp only [hsc, hmiss]
  · show planOf (tableGeneration dbc tn fs (pre ++ o :: post)).1 = _
    simp only [tableGeneration, hne', Bool.false_eq_true, if_false]
    simp only [hsc, hmiss]
    rw [show ∀ a b c d : List Event, Event.query DBType.world (Stmt.introspectColumns tn)
          :: (a ++ b ++ c ++ d)
        = (([Event.query DBType.world (Stmt.introspectColumns tn)] ++ a) ++ b ++ c) ++ d
        by intro a b c d; simp]
    rw [planOf_append, planOf_append, planOf_append, planOf_backfill, planOf_rebuild]
    rw [hsplit, hcons]
    simp only [planOf_append]
    have hnil : planOf (scanObs dbc tn fs o).1 = [] := by rw [hobs]; rfl
    rw [hnil]
    simp [planOf]

/-- **C1 witness.** The `Player` entity whose catalog shows `id` with
drifted type `BIGINT(20) UNSIGNED` (and nothing scanned before it)
rebuilds with exactly `DropTableIfExists; CreateTable; backfills`. -/
theorem pk_drift_rebuild_witness :
    (scanLoop .world "Player" playerFields []).2.2 = false
    ∧ playerFields.find? (fun x => x.name == "id") = some playerId
    ∧ playerId.isPrimaryKey = true
    ∧ upperStr "BIGINT(20) UNSIGNED" ≠ getReadSQLType playerId
    ∧ playerId.type ≠ .string
    ∧ upperStr "BIGINT(20) UNSIGNED" ≠ "TEXT"
    ∧ (tableGeneration .world "Player" playerFields
         ([] ++ ⟨"id", "BIGINT(20) UNSIGNED", true⟩ :: [])).2 = true
    ∧ tableGenPlan .world "Player" playerFields
         ([] ++ ⟨"id", "BIGINT(20) UNSIGNED", true⟩ :: [])
        = planOf (scanLoop .world "Player" playerFields []).1
          ++ [MigrationStep.DropTableIfExists, MigrationStep.CreateTable playerFields]
          ++ (playerFields.filter (fun x => !x.isPrimaryKey)).map .BackfillDefault := by
  refine ⟨by decide, by decide, by decide, by decide, by decide, by decide, ?_, ?_⟩
  · exact (pk_drift_rebuild .world "Player" playerFields [] []
      ⟨"id", "BIGINT(20) UNSIGNED", true⟩ playerId (by decide) (by decide) (by decide)
      (by decide) (by decide) (by decide) (by decide)).1
  · exact (pk_drift_rebuild .world "Player" playerFields [] []
      ⟨"id", "BIGINT(20) UNSIGNED", true⟩ playerId (by decide) (by decide) (by decide)
      (by decide) (by decide) (by decide) (by decide)).2

/-- **C1 counterexample.** A run in which `gold`'s observed type
drifted to `text` before `id`'s primary-key drift is reached: the
primary-key rebuild condition of the claim holds, yet the executed plan
is not exactly `[DropTableIfExists, CreateTable, backfills]` — the
`DropColumn`/`AddColumn` repair of `gold` executed before the rebuild
decision stays in the plan. -/
theorem pk_drift_plan_not_exact :
    (upperStr "BIGINT(20) UNSIGNED" ≠ getReadSQLType playerId
     ∧ playerId.isPrimaryKey = true
     ∧ upperStr "BIGINT(20) UNSIGNED" ≠ "TEXT"
     ∧ (tableGeneration .world "Player" playerFields
          [⟨"gold", "text", false⟩, ⟨"id", "BIGINT(20) UNSIGNED", true⟩]).2 = true)
    ∧ tableGenPlan .world "Player" playerFields
        [⟨"gold", "text", false⟩, ⟨"id", "BIGINT(20) UNSIGNED", true⟩]
      ≠ [MigrationStep.DropTableIfExists, MigrationStep.CreateTable playerFields,
         MigrationStep.BackfillDefault playerName, MigrationStep.BackfillDefault playerGold] := by
  exact ⟨⟨by decide, rfl, by decide, rfl⟩, by decide⟩

/-! ### C7: per-column outcomes -/

/-- An unmatched catalog column: key-usage lookup, confirmation, then
the `DropColumn`; never a break. -/
theorem scanObs_unmatched (dbc : DBType) (tn : String) (fs : List Field)
    (o : ColumnObservation)
    (hfind : fs.find? (fun f => f.name == o.name) = none) :
    scanObs dbc tn fs o
      = ([.query .world (.introspectKeyUsage tn o.name),
          .ask (tn ++ ":" ++ o.name ++ " was removed"),
          .query dbc (.migrate tn (.DropColumn o.name))], false) := by
  unfold scanObs
  rw [hfind]

/-- If the missing-field chain ends with `should_create = false`, every
declared non-primary-key field not in the found set got its
`AddColumn` statement. -/
theorem missingLoop_add_mem (dbc : DBType) (tn : String) (found : List String) :
    ∀ (fs : List Field) (sc : Bool) (x : Field),
      (missingLoop dbc tn found fs sc).2 = false → x ∈ fs →
      x.isPrimaryKey = false → x.name ∉ found →
      Event.query dbc (.migrate tn (.AddColumn x.name (getWriteSQLType x)))
        ∈ (missingLoop dbc tn found fs sc).1 := by
  intro fs
  induction fs with
  | nil => intro sc x _ hx; cases hx
  | cons y rest ih =>
    intro sc x hfin hx hnpk hnf
    cases sc with
    | true => rw [missingLoop_true] at hfin; cases hfin
    | false =>
      by_cases hyf : y.name ∈ found
      · have hml : missingLoop dbc tn found (y :: rest) false
            = missingLoop dbc tn found rest false := by
          simp [missingLoop, hyf]
        rw [hml] at hfin ⊢
        rcases List.mem_cons.mp hx with hxy | hxr
        · subst hxy; exact absurd hyf hnf
        · exact ih false x hfin hxr hnpk hnf
      · by_cases hyp : y.isPrimaryKey = true
        · have hml : missingLoop dbc tn found (y :: rest) false
              = (.ask (tn ++ ": new primary key " ++ y.name
                       ++ " missing, need to rebuild database.")
                  :: (missingLoop dbc tn found rest true).1,
                 (missingLoop dbc tn found rest true).2) := by
            simp [missingLoop, hyf, hyp]
          rw [hml, missingLoop_true] at hfin
          cases hfin
        · simp only [Bool.not_eq_true] at hyp
          have hml : missingLoop dbc tn found (y :: rest) false
              = (Event.query dbc (.migrate tn (.AddColumn y.name (getWriteSQLType y)))
                  :: (missingLoop dbc tn found rest false).1,
                 (missingLoop dbc tn found rest false).2) := by
            simp [missingLoop, hyf, hyp]
          rw [hml] at hfin ⊢
          rcases List.mem_cons.mp hx with hxy | hxr
          · subst hxy; exact List.mem_cons_self _ _
          · exact List.mem_cons_of_mem _ (ih false x hfin hxr hnpk hnf)

/-- A declared primary-key field not in the found set forces
`should_create = true` at the end of the missing-field chain. -/
theorem missingLoop_pk_forces (dbc : DBType) (tn : String) (found : List String) :
    ∀ (fs : List Field) (sc : Bool) (x : Field),
      x ∈ fs → x.isPrimaryKey = true → x.name ∉ found →
      (missingLoop dbc tn found fs sc).2 = true := by
  intro fs
  induction fs with
  | nil => intro sc x hx; cases hx
  | cons y rest ih =>
    intro sc x hx hpk hnf
    cases sc with
    | true => rw [missingLoop_true]
    | false =>
      by_cases hyf : y.name ∈ found
      · have hml : missingLoop dbc tn found (y :: rest) false
            = missingLoop dbc tn found rest false := by
          simp [missingLoop, hyf]
        rw [hml]
        rcases List.mem_cons.mp hx with hxy | hxr
        · subst hxy; exact absurd hyf hnf
        · exact ih false x hxr hpk hnf
      · by_cases hyp : y.isPrimaryKey = true
        · have hml : missingLoop dbc tn found (y :: rest) false
              = (.ask (tn ++ ": new primary key " ++ y.name
                       ++ " missing, need to rebuild database.")
                  :: (missingLoop dbc tn found rest true).1,
                 (missingLoop dbc tn found rest true).2) := by
            simp [missingLoop, hyf, hyp]
          rw [hml, missingLoop_true]
        · simp only [Bool.not_eq_true] at hyp
          have hml : missingLoop dbc tn found (y :: rest) false
              = (Event.query dbc (.migrate tn (.AddColumn y.name (getWriteSQLType y)))
                  :: (missingLoop dbc tn found rest false).1,
                 (missingLoop dbc tn found rest false).2) := by
            simp [missingLoop, hyf, hyp]
          rw [hml]
          rcases List.mem_cons.mp hx with hxy | hxr
          · subst hxy; rw [hyp] at hpk; cases hpk
          · exact ih false x hxr hpk hnf

/-- **C7 (corrected).** For every reconciliation run:
(a) a catalog column matching no declared field, reached by a scan that
has not broken before it, produces its `DropColumn` in the executed
plan and never itself triggers a rebuild;
(b) a declared non-primary-key field absent from the catalog produces
its write-type `AddColumn` in the executed plan *provided* the run's
final `should_create` is false — an earlier missing primary key
suppresses the addition;
(c) a declared primary-key field absent from the catalog always leaves
the run with `should_create = true`. -/
theorem per_column_outcomes (dbc : DBType) (tn : String) (fs : List Field) :
    (∀ (pre post : List ColumnObservation) (o : ColumnObservation),
      (scanLoop dbc tn fs pre).2.2 = false →
      fs.find? (fun f => f.name == o.name) = none →
      (scanObs dbc tn fs o).2 = false
      ∧ MigrationStep.DropColumn o.name ∈ tableGenPlan dbc tn fs (pre ++ o :: post))
    ∧ (∀ (obs : List ColumnObservation) (x : Field),
      (tableGeneration dbc tn fs obs).2 = false → x ∈ fs →
      x.isPrimaryKey = false → x.name ∉ (scanLoop dbc tn fs obs).2.1 →
      MigrationStep.AddColumn x.name (getWriteSQLType x) ∈ tableGenPlan dbc tn fs obs)
    ∧ (∀ (obs : List ColumnObservation) (x : Field),
      x ∈ fs → x.isPrimaryKey = true → x.name ∉ (scanLoop dbc tn fs obs).2.1 →
      (tableGeneration dbc tn fs obs).2 = true) := by
  refine ⟨?_, ?_, ?_⟩
  · intro pre post o hpre hfind
    have hobs := scanObs_unmatched dbc tn fs o hfind
    refine ⟨by rw [hobs], ?_⟩
    have hne : (pre ++ o :: post).isEmpty = false := by cases pre <;> rfl
    rw [tableGenPlan_nonempty dbc tn fs _ hne]
    have hsplit := scanLoop_append dbc tn fs pre (o :: post) hpre
    have hmem : MigrationStep.DropColumn o.name
        ∈ planOf (scanLoop dbc tn fs (pre ++ o :: post)).1 := by
      rw [hsplit]
      simp only [scanLoop, hobs]
      rw [planOf_append]
      refine List.mem_append_right _ ?_
      by_cases hb : ((false : Bool) = true)
      · cases hb
      · simp only [Bool.false_eq_true, if_false]
        rw [planOf_append]
        refine List.mem_append_left _ ?_
        simp [planOf]
    exact List.mem_append_left _ (List.mem_append_left _
      (List.mem_append_left _ hmem))
  · intro obs x hfin hx hnpk hnf
    have hne : obs.isEmpty = false := by
      cases h : obs with
      | nil => subst h; simp [tableGeneration] at hfin
      | cons a r => rfl
    rw [tableGen_snd dbc tn fs obs hne] at hfin
    have hmem := missingLoop_add_mem dbc tn (scanLoop dbc tn fs obs).2.1 fs
      (scanLoop dbc tn fs obs).2.2 x hfin hx hnpk hnf
    rw [tableGenPlan_nonempty dbc tn fs obs hne]
    refine List.mem_append_left _ (List.mem_append_left _
      (List.mem_append_right _ ?_))
    exact List.mem_filterMap.mpr ⟨_, hmem, rfl⟩
  · intro obs x hx hpk hnf
    cases h : obs with
    | nil => subst h; rfl
    | cons a r =>
      subst h
      rw [tableGen_snd dbc tn fs (a :: r) rfl]
      exact missingLoop_pk_forces dbc tn _ fs _ x hx hpk hnf

/-- Fields of the C7 counterexample entity: two primary keys and one
plain field. -/
def tfA : Field := ⟨"a", .uint32, true, "0"⟩

def tfB : Field := ⟨"b", .uint32, true, "0"⟩

def tfC : Field := ⟨"c", .uint32, false, "5"⟩

def tFields : List Field := [tfA, tfB, tfC]

/-- **C7 witness.** Concrete instances of all three parts: table `T`
with fields `a (pk), b (pk), c`; an unmatched column `old` is dropped;
on a catalog matching only `a` for the entity `Player`, the missing
`name`/`gold` fields are added; the missing primary key `b` forces a
rebuild. -/
theorem per_column_outcomes_witness :
    ((scanObs .world "T" tFields ⟨"old", "TEXT", false⟩).2 = false
     ∧ MigrationStep.DropColumn "old"
        ∈ tableGenPlan .world "T" tFields [⟨"old", "TEXT", false⟩])
    ∧ MigrationStep.AddColumn "gold" "INT UNSIGNED"
        ∈ tableGenPlan .world "Player" playerFields [⟨"id", "INT(10) UNSIGNED", true⟩]
    ∧ (tableGeneration .world "T" tFields [⟨"a", "INT(10) UNSIGNED", true⟩]).2 = true := by
  refine ⟨?_, ?_, ?_⟩
  · exact (per_column_outcomes .world "T" tFields).1 [] [] ⟨"old", "TEXT", false⟩
      (by decide) (by decide)
  · exact (per_column_outcomes .world "Player" playerFields).2.1
      [⟨"id", "INT(10) UNSIGNED", true⟩] playerGold (by decide) (by decide)
      (by decide) (by decide)
  · exact (per_column_outcomes .world "T" tFields).2.2
      [⟨"a", "INT(10) UNSIGNED", true⟩] tfB (by decide) (by decide) (by decide)

/-- **C7 counterexample.** Table `T{a pk, b pk, c}` with catalog
`[(a, INT(10) UNSIGNED, pk)]`: the scan completes without the rebuild
break and `c` is a non-primary-key field absent from the catalog, yet
no `AddColumn` for `c` is executed — the missing primary key `b`
(earlier in declaration order) set `should_create` first, so the
`if( !should_create ...)` guard suppressed the addition. -/
theorem missing_field_add_suppressed :
    (scanLoop .world "T" tFields [⟨"a", "INT(10) UNSIGNED", true⟩]).2.2 = false
    ∧ tfC ∈ tFields
    ∧ tfC.isPrimaryKey = false
    ∧ "c" ∉ (scanLoop .world "T" tFields [⟨"a", "INT(10) UNSIGNED", true⟩]).2.1
    ∧ MigrationStep.AddColumn "c" (getWriteSQLType tfC)
        ∉ tableGenPlan .world "T" tFields [⟨"a", "INT(10) UNSIGNED", true⟩]
    ∧ tableGenPlan .world "T" tFields [⟨"a", "INT(10) UNSIGNED", true⟩]
        = [MigrationStep.DropTableIfExists, MigrationStep.CreateTable tFields,
           MigrationStep.BackfillDefault tfC] := by
  exact ⟨by decide, by decide, rfl, by decide, by decide, by decide⟩

/-! ### C6: string-typed primary keys -/

/-- Members of a class declaring a `uint32` primary key and a
`TSDBDict<string,uint32>` sub-map. -/
def c6Members : List MemberDecl :=
  [⟨"id", "uint32", true, true, some "0"⟩,
   ⟨"tags", "TSDBDict<string,uint32>", true, false, none⟩]

/-- The entry `handleClass` builds for `c6Members`. -/
def c6Entry : Entry :=
  ⟨"Player", .world, [⟨"id", .uint32, true, "0"⟩], [⟨"tags", .string, .uint32⟩]⟩

/-- **C6 (code bug).** Model construction rejects a string-typed scalar
primary key (`@PrimaryKey name: string`), but it accepts a
`TSDBDict<string, ...>` member — the dictionary type-argument check only
tests membership in `MethodTypes`, which contains `string` — and
`writeTableCreationFile` then gives the subordinate table a `map_key`
column of type `string` marked as a primary key, violating the declared
invariant that no primary-key field has string type. -/
theorem string_map_key_slips_through :
    buildEntry "Player" .world c6Members = Except.ok c6Entry
    ∧ Field.mk "map_key" FieldType.string true ""
        ∈ subFields c6Entry ⟨"tags", .string, .uint32⟩
    ∧ (Field.mk "map_key" FieldType.string true "").isPrimaryKey = true
    ∧ (Field.mk "map_key" FieldType.string true "").type = .string
    ∧ buildEntry "Player" .world [⟨"nm", "string", true, true, some "\"\""⟩]
        = Except.error "Strings cannot be primary keys (yet)" := by
  exact ⟨rfl, by decide, rfl, rfl, rfl⟩

/-! ### C8: sub-map flush ordering and delta clearing -/

/-- In a concatenation whose left part has no `q`-element and whose
right part has no `p`-element, every `p`-position lies strictly before
every `q`-position. -/
theorem region_lt {A : Type} (p q : A -> Bool) :
    ∀ (l₁ l₂ : List A) (i j : Nat)
      (hi : i < (l₁ ++ l₂).length) (hj : j < (l₁ ++ l₂).length),
      (∀ x ∈ l₁, q x = false) → (∀ x ∈ l₂, p x = false) →
      p ((l₁ ++ l₂).get ⟨i, hi⟩) = true → q ((l₁ ++ l₂).get ⟨j, hj⟩) = true →
      i < j := by
  intro l₁
  induction l₁ with
  | nil =>
    intro l₂ i j hi hj h₁ h₂ hp hq
    have hfalse := h₂ _ (List.get_mem ([] ++ l₂) i hi)
    rw [hfalse] at hp
    exact Bool.noConfusion hp
  | cons a l₁ ih =>
    intro l₂ i j hi hj h₁ h₂ hp hq
    cases j with
    | zero =>
      have ha : ((a :: l₁) ++ l₂).get ⟨0, hj⟩ = a := rfl
      rw [ha, h₁ a (List.mem_cons_self _ _)] at hq
      exact Bool.noConfusion hq
    | succ j2 =>
      cases i with
      | zero => exact Nat.succ_pos j2
      | succ i2 =>
        have hi2 : i2 < (l₁ ++ l₂).length := by simpa using hi
        have hj2 : j2 < (l₁ ++ l₂).length := by simpa using hj
        have hp2 : p ((l₁ ++ l₂).get ⟨i2, hi2⟩) = true := by simpa using hp
        have hq2 : q ((l₁ ++ l₂).get ⟨j2, hj2⟩) = true := by simpa using hq
        exact Nat.succ_lt_succ
          (ih l₂ i2 j2 hi2 hj2 (fun x hx => h₁ x (List.mem_cons_of_mem _ hx)) h₂ hp2 hq2)

/-- Transport `List.get` along an equality of lists. -/
theorem get_congr {A : Type} (l l2 : List A) (h : l = l2) (i : Nat)
    (hi : i < l.length) : l.get ⟨i, hi⟩ = l2.get ⟨i, h ▸ hi⟩ := by
  subst h
  rfl

theorem foldl_applyOp_no_clear {K V : Type} :
    ∀ (l : List (FlushOp K V)) (st : DictState K V),
      (∀ op ∈ l, isClearDeltas op = false) → l.foldl applyOp st = st := by
  intro l
  induction l with
  | nil => intro st _; rfl
  | cons op rest ih =>
    intro st h
    have hop : applyOp st op = st := by
      cases op with
      | upsert k v => rfl
      | eraseRow k => rfl
      | clearDeltas => exact Bool.noConfusion (h _ (List.mem_cons_self _ _))
    rw [List.foldl_cons, hop]
    exact ih st (fun x hx => h x (List.mem_cons_of_mem _ hx))

/-- **C8 (confirmed, spec-modelled delta state).** For each sub-map the
generated `save()` runs every dirty-key upsert before any erased-key
delete, the `clear()` of the delta state is the final statement, a
flush that halts at any statement before the end leaves the dirty and
erased sets untouched (so a re-attempted `save` issues exactly the same
statements again), and only the complete flush produces the clean state
with no dirty and no erased keys. -/
theorem flush_order_and_clear {K V : Type} (s : DictState K V) :
    (∀ (i j : Nat) (hi : i < (flushOps s).length) (hj : j < (flushOps s).length),
      isUpsert ((flushOps s).get ⟨i, hi⟩) = true →
      isEraseRow ((flushOps s).get ⟨j, hj⟩) = true → i < j)
    ∧ (flushOps s).getLast? = some FlushOp.clearDeltas
    ∧ (∀ n : Nat, n < (flushOps s).length →
        execFlush s n = s ∧ flushOps (execFlush s n) = flushOps s)
    ∧ dirtyKeys (execFlush s (flushOps s).length) = []
    ∧ erasedKeys (execFlush s (flushOps s).length) = [] := by
  have hA : ∀ x ∈ (s.entries.filter (fun e => e.2.2)).map
      (fun e => FlushOp.upsert e.1 e.2.1), isEraseRow x = false := by
    intro x hx
    rcases List.mem_map.mp hx with ⟨e, _, rfl⟩
    rfl
  have hB : ∀ x ∈ s.erases.map (FlushOp.eraseRow (K := K) (V := V))
      ++ [FlushOp.clearDeltas], isUpsert x = false := by
    intro x hx
    rcases List.mem_append.mp hx with h | h
    · rcases List.mem_map.mp h with ⟨k, _, rfl⟩
      rfl
    · rcases List.mem_singleton.mp h with rfl
      rfl
  have hABnoclear : ∀ x ∈ (s.entries.filter (fun e => e.2.2)).map
      (fun e => FlushOp.upsert e.1 e.2.1) ++ s.erases.map FlushOp.eraseRow,
      isClearDeltas x = false := by
    intro x hx
    rcases List.mem_append.mp hx with h | h
    · rcases List.mem_map.mp h with ⟨e, _, rfl⟩
      rfl
    · rcases List.mem_map.mp h with ⟨k, _, rfl⟩
      rfl
  have hassoc : flushOps s
      = (s.entries.filter (fun e => e.2.2)).map (fun e => FlushOp.upsert e.1 e.2.1)
        ++ (s.erases.map FlushOp.eraseRow ++ [FlushOp.clearDeltas]) := by
    simp [flushOps]
  have hdec2 : flushOps s
      = ((s.entries.filter (fun e => e.2.2)).map (fun e => FlushOp.upsert e.1 e.2.1)
         ++ s.erases.map FlushOp.eraseRow) ++ [FlushOp.clearDeltas] := rfl
  have hfull : execFlush s (flushOps s).length = applyOp s FlushOp.clearDeltas := by
    show ((flushOps s).take (flushOps s).length).foldl applyOp s = _
    rw [List.take_length, hdec2, List.foldl_append,
      foldl_applyOp_no_clear _ s hABnoclear]
    rfl
  refine ⟨?_, ?_, ?_, ?_, ?_⟩
  · intro i j hi hj hu he
    rw [get_congr _ _ hassoc i hi] at hu
    rw [get_congr _ _ hassoc j hj] at he
    exact region_lt isUpsert isEraseRow _ _ i j (hassoc ▸ hi) (hassoc ▸ hj) hA hB hu he
  · rw [hdec2, List.getLast?_concat]
  · intro n hn
    have hlen : (flushOps s).length
        = ((s.entries.filter (fun e : K × V × Bool => e.2.2)).map
            (fun e : K × V × Bool => FlushOp.upsert e.1 e.2.1)
           ++ s.erases.map FlushOp.eraseRow).length + 1 := by
      rw [hdec2, List.length_append]
      rfl
    have hle : n ≤ ((s.entries.filter (fun e : K × V × Bool => e.2.2)).map
        (fun e : K × V × Bool => FlushOp.upsert e.1 e.2.1)
        ++ s.erases.map FlushOp.eraseRow).length := by omega
    have htake : (flushOps s).take n
        = ((s.entries.filter (fun e : K × V × Bool => e.2.2)).map
            (fun e : K × V × Bool => FlushOp.upsert e.1 e.2.1)
           ++ s.erases.map FlushOp.eraseRow).take n := by
      rw [hdec2]
      exact List.take_append_of_le_length hle
    have hnoclear : ∀ op ∈ (flushOps s).take n, isClearDeltas op = false := by
      intro op hop
      rw [htake] at hop
      exact hABnoclear op (List.take_subset n _ hop)
    have hexec : execFlush s n = s := foldl_applyOp_no_clear _ s hnoclear
    exact ⟨hexec, by rw [hexec]⟩
  · rw [hfull]
    show ((s.entries.map (fun e => (e.1, e.2.1, false))).filter
      (fun e => e.2.2)).map (fun e => e.1) = []
    rw [List.filter_eq_nil_iff.mpr]
    · rfl
    · intro a ha
      rcases List.mem_map.mp ha with ⟨e, _, rfl⟩
      simp
  · rw [hfull]
    rfl

/-- A concrete sub-map delta state: key 1 dirty, key 2 clean, key 3
erased. -/
def sampleDict : DictState Nat Nat := ⟨[(1, 10, true), (2, 20, false)], [3]⟩

/-- **C8 witness.** On `sampleDict` the flush is
`[upsert 1 10, eraseRow 3, clearDeltas]`: the upsert (index 0) precedes
the delete (index 1), halting after two statements leaves the deltas
intact, and the complete flush clears them. -/
theorem flush_order_and_clear_witness :
    (0 : Nat) < 1
    ∧ execFlush sampleDict 2 = sampleDict
    ∧ flushOps (execFlush sampleDict 2) = flushOps sampleDict
    ∧ dirtyKeys (execFlush sampleDict (flushOps sampleDict).length) = []
    ∧ erasedKeys (execFlush sampleDict (flushOps sampleDict).length) = [] := by
  have h := flush_order_and_clear sampleDict
  refine ⟨?_, (h.2.2.1 2 (by decide)).1, (h.2.2.1 2 (by decide)).2, h.2.2.2.1, h.2.2.2.2⟩
  exact h.1 0 1 (by decide) (by decide) (by decide) (by decide)

/-! ### C10: connection routing -/

/-- Connection discipline for one event of a table whose own database
is `dbc`: `information_schema` introspections go through the world
connection (the emitted code always calls `QueryWorld` for them), and
migration statements go through `Query<dbc>`. -/
def eventConnOk (dbc : DBType) : Event → Bool
  | .query c (.introspectColumns _) => c == .world
  | .query c (.introspectKeyUsage _ _) => c == .world
  | .query c (.migrate _ _) => c == dbc
  | .ask _ => true

theorem scanObs_conn (dbc : DBType) (tn : String) (fs : List Field)
    (o : ColumnObservation) :
    ((scanObs dbc tn fs o).1).all (eventConnOk dbc) = true := by
  unfold scanObs
  cases fs.find? (fun f => f.name == o.name) with
  | none => simp [eventConnOk]
  | some f =>
    by_cases h1 : (upperStr o.rawType == getReadSQLType f) = true
    · simp [h1, eventConnOk]
    · by_cases h2 : (f.type == FieldType.string) = true
      · simp [h1, h2, eventConnOk]
      · by_cases h3 : (upperStr o.rawType == "TEXT") = true
        · simp [h1, h2, h3, eventConnOk]
        · by_cases h4 : o.isPrimaryKeyMember = true
          · simp [h1, h2, h3, h4, eventConnOk]
          · simp [h1, h2, h3, h4, eventConnOk]

theorem scanLoop_conn (dbc : DBType) (tn : String) (fs : List Field) :
    ∀ obs : List ColumnObservation,
      ((scanLoop dbc tn fs obs).1).all (eventConnOk dbc) = true := by
  intro obs
  induction obs with
  | nil => rfl
  | cons o rest ih =>
    have h := scanObs_conn dbc tn fs o
    by_cases hb : (scanObs dbc tn fs o).2 = true
    · simp [scanLoop, hb, h]
    · simp only [Bool.not_eq_true] at hb
      simp [scanLoop, hb, List.all_append, h, ih]

theorem missingLoop_conn (dbc : DBType) (tn : String) (found : List String) :
    ∀ (fs : List Field) (sc : Bool),
      ((missingLoop dbc tn found fs sc).1).all (eventConnOk dbc) = true := by
  intro fs
  induction fs with
  | nil => intro sc; rfl
  | cons x rest ih =>
    intro sc
    cases sc with
    | true => simpa [missingLoop] using ih true
    | false =>
      by_cases hf : x.name ∈ found
      · simpa [missingLoop, hf] using ih false
      · by_cases hp : x.isPrimaryKey = true
        · simpa [missingLoop, hf, hp, eventConnOk] using ih true
        · simp only [Bool.not_eq_true] at hp
          simpa [missingLoop, hf, hp, eventConnOk] using ih false

theorem rebuildEvents_conn (dbc : DBType) (tn : String) (fs : List Field)
    (sc : Bool) :
    (rebuildEvents dbc tn fs sc).all (eventConnOk dbc) = true := by
  cases sc <;> simp [rebuildEvents, eventConnOk]

theorem backfillEvents_conn (dbc : DBType) (tn : String) (fs : List Field) :
    (backfillEvents dbc tn fs).all (eventConnOk dbc) = true := by
  rw [List.all_eq_true]
  intro ev hev
  rcases List.mem_map.mp hev with ⟨f, _, rfl⟩
  simp [eventConnOk]

theorem tableGeneration_conn (dbc : DBType) (tn : String) (fs : List Field)
    (obs : List ColumnObservation) :
    ((tableGeneration dbc tn fs obs).1).all (eventConnOk dbc) = true := by
  by_cases he : obs.isEmpty = true
  · simp [tableGeneration, he, List.all_append, rebuildEvents_conn,
      backfillEvents_conn, eventConnOk]
  · simp only [Bool.not_eq_true] at he
    simp [tableGeneration, he, List.all_append, scanLoop_conn, missingLoop_conn,
      rebuildEvents_conn, backfillEvents_conn, eventConnOk]

/-- **C10 (confirmed).** `WriteTables` processes the entries in order;
for every entry (and each of its subordinate map tables) all
catalog-introspection queries run through the world connection while
all migration statements run through the entry's own database
connection. -/
theorem introspect_world_migrate_own (obsOf : String → List ColumnObservation)
    (es : List Entry) :
    writeTables obsOf es = (es.map (entryEvents obsOf)).flatten
    ∧ ∀ e ∈ es, (entryEvents obsOf e).all (eventConnOk e.databaseType) = true := by
  refine ⟨rfl, ?_⟩
  intro e _
  have hdicts : ((e.dictionaries.map (fun d =>
      (tableGeneration e.databaseType (db_name e d) (subFields e d)
        (obsOf (db_name e d))).1)).flatten).all (eventConnOk e.databaseType) = true := by
    rw [List.all_eq_true]
    intro ev hev
    rcases List.mem_flatten.mp hev with ⟨l, hl, hevl⟩
    rcases List.mem_map.mp hl with ⟨d, _, rfl⟩
    exact List.all_eq_true.mp
      (tableGeneration_conn e.databaseType (db_name e d) (subFields e d)
        (obsOf (db_name e d))) ev hevl
  have hown := tableGeneration_conn e.databaseType e.className e.fields
    (obsOf e.className)
  simp [entryEvents, List.all_append, hown, hdicts]

/-- An empty catalog oracle: no table exists yet. -/
def emptyCatalog : String → List ColumnObservation := fun _ => []

/-- A characters-database entity with one sub-map, for the C10
witness. -/
def wEntry : Entry :=
  ⟨"Guild", .characters,
   [⟨"id", .uint32, true, "0"⟩, ⟨"gold", .uint32, false, "0"⟩],
   [⟨"members", .uint32, .uint32⟩]⟩

/-- **C10 witness.** For the concrete `Guild` entity on the characters
database, every event of its reconciliation (entity table and
subordinate `guild_members` table) satisfies the connection
discipline. -/
theorem introspect_world_migrate_own_witness :
    wEntry ∈ [wEntry]
    ∧ (entryEvents emptyCatalog wEntry).all (eventConnOk DBType.characters) = true := by
  constructor
  · exact List.mem_singleton.mpr rfl
  · exact (introspect_world_migrate_own emptyCatalog [wEntry]).2 wEntry
      (List.mem_singleton.mpr rfl)

end TswowOrm
